import Mathlib

/-!
# Verification of rag-ml/kb/build-docs.py (corpus builder)

Shallow embedding of the knowledge-base corpus builder. The filesystem is
modelled as a list of file entries; each entry records its path relative to
the directory root, its content, and the metadata that shutil.copy2
preserves (modification time, permission mode). Directories are implicit in
the paths: creating intermediate directories (ensure_dir) has no separate
observable effect in this model.

Each build step of the source is embedded as a pure function from the raw
input (an Option: `none` models a missing raw prerequisite) and the prior
contents of the output directory to a pair of an optional fatal error
message (SystemExit) and the resulting output directory contents.
-/

/-- A regular file: path relative to the directory root (as a list of path
components), content, and the metadata preserved by shutil.copy2. -/
structure FileEntry where
  path : List String
  content : String
  mtime : Nat
  mode : Nat
deriving DecidableEq

/-- shutil.copy2: copies the file content and preserves metadata
(modification time, permissions). -/
def copy2Entry (e : FileEntry) : FileEntry :=
  { path := e.path, content := e.content, mtime := e.mtime, mode := e.mode }

/-- reset_dir: remove the directory if present and recreate it empty.
In the list model the result is always the empty directory. -/
def reset_dir {α : Type} (_prior : List α) : List α := []

/-- copy_tree: os.walk over src, copying every file with shutil.copy2 to
the same relative path under dst. -/
def copy_tree (src : List FileEntry) : List FileEntry :=
  src.map copy2Entry

/-- Helper for pySuffix: find the LAST dot of the scanned region and return
the segment from it (inclusive) to the end. A final dot (nothing after it)
yields the empty segment, with no fallback to any earlier dot, matching
rfind: the rightmost dot alone decides. -/
def suffixAux : List Char → Option (List Char)
  | [] => none
  | c :: rest =>
    match suffixAux rest with
    | some s => some s
    | none =>
      if c = '.' then
        (if rest = [] then some [] else some (c :: rest))
      else none

/-- pathlib.PurePath.suffix on a file name, per rfind: with i the index of
the rightmost dot, the extension is the segment from i to the end when
0 < i < len - 1, and empty otherwise (no dot, rightmost dot is the leading
character, or rightmost dot is the final character). The leading character
is excluded by searching only in the tail of the name. -/
def pySuffix (name : String) : String :=
  match name.toList with
  | [] => ""
  | _ :: rest =>
    match suffixAux rest with
    | some s => String.mk s
    | none => ""

/-- The ASCII restriction of the runtime lowercasing str.lower, used to
instantiate the executable model; the full Unicode case mapping of the
Python runtime is external library code and is abstracted as the `low`
parameter of copy_matching_files_with. -/
def strLower (s : String) : String := String.mk (s.toList.map Char.toLower)

/-- The file name of an entry: the last component of its relative path. -/
def fileName (e : FileEntry) : String := e.path.getLastD ("")

/-- copy_matching_files with the external str.lower routine abstracted as
the parameter `low` (a black-box capability of the Python runtime, like
text extraction): walk src_root recursively and copy (copy2) every regular
file whose lowered suffix is in `suffixes` to the mirrored relative path
under dst_root; return the copied files and their count. -/
def copy_matching_files_with (low : String → String)
    (files : List FileEntry) (suffixes : List String) :
    List FileEntry × Nat :=
  let matched := files.filter fun e => decide (low (pySuffix (fileName e)) ∈ suffixes)
  (matched.map copy2Entry, matched.length)

/-- copy_matching_files: walk src_root recursively and copy (copy2) every
regular file whose lowercased suffix is in `suffixes` to the mirrored
relative path under dst_root; return the copied files and their count.
Executable instance of copy_matching_files_with at the ASCII lowering. -/
def copy_matching_files (files : List FileEntry) (suffixes : List String) :
    List FileEntry × Nat :=
  let matched := files.filter fun e => decide (strLower (pySuffix (fileName e)) ∈ suffixes)
  (matched.map copy2Entry, matched.length)

/-- build_python error message (SystemExit) when the raw directory is absent. -/
def pythonErrMsg : String := "Python raw docs not found. Run: ./rag-ml/kb/pull-docs.sh"

/-- build_javascript error message when the raw ecma262.txt is absent. -/
def jsErrMsg : String := "JS raw ecma262.txt not found. Run: ./rag-ml/kb/pull-docs.sh"

/-- build_swift error message when the raw swift-book directory is absent. -/
def swiftErrMsg : String := "Swift raw swift-book not found. Run: ./rag-ml/kb/pull-docs.sh"

/-- build_cpp error message when the raw PDF is absent. -/
def cppErrMsg : String := "C++ draft PDF not found. Run: ./rag-ml/kb/pull-docs.sh"

/-- build_python: check the raw directory exists (else SystemExit before any
mutation), reset the output directory, and copy the raw tree verbatim. -/
def build_python (raw : Option (List FileEntry)) (prior : List FileEntry) :
    Option String × List FileEntry :=
  match raw with
  | none => (some pythonErrMsg, prior)
  | some files => (none, reset_dir prior ++ copy_tree files)

/-- build_javascript: check raw ecma262.txt exists, reset the output
directory, and copy2 the single file into it as ecma262.txt. -/
def build_javascript (raw : Option FileEntry) (prior : List FileEntry) :
    Option String × List FileEntry :=
  match raw with
  | none => (some jsErrMsg, prior)
  | some f =>
    (none, reset_dir prior ++ [{ path := ["ecma262.txt"], content := f.content,
                                 mtime := f.mtime, mode := f.mode }])

/-- The raw swift-book directory: the files under TSPL.docc (paths relative
to TSPL.docc) and the optional top-level LICENSE.txt file. -/
structure SwiftRaw where
  docc : List FileEntry
  license : Option FileEntry
deriving DecidableEq

/-- Re-root an entry copied from raw TSPL.docc under out/TSPL.docc. -/
def doccEntry (e : FileEntry) : FileEntry :=
  { path := "TSPL.docc" :: e.path, content := e.content, mtime := e.mtime, mode := e.mode }

/-- The output entry produced by copying raw/LICENSE.txt (copy2) to the top
level of the output directory. -/
def licenseEntry (lf : FileEntry) : FileEntry :=
  { path := ["LICENSE.txt"], content := lf.content, mtime := lf.mtime, mode := lf.mode }

/-- build_swift: check the raw swift-book directory exists, reset the output
directory, copy the .md files of TSPL.docc into out/TSPL.docc, then, when
raw/LICENSE.txt exists, copy2 it to the top-level out/LICENSE.txt. -/
def build_swift (raw : Option SwiftRaw) (prior : List FileEntry) :
    Option String × List FileEntry :=
  match raw with
  | none => (some swiftErrMsg, prior)
  | some sr =>
    let copied := (copy_matching_files sr.docc [".md"]).1.map doccEntry
    let out :=
      match sr.license with
      | some lf => copied ++ [licenseEntry lf]
      | none => copied
    (none, reset_dir prior ++ out)

/-- The count logged by build_swift as md_files: the count returned by
copy_matching_files over TSPL.docc with the .md filter. -/
def swiftReportCount (sr : SwiftRaw) : Nat :=
  (copy_matching_files sr.docc [".md"]).2

/-- A PDF, reduced to what build_cpp observes through pypdf: for each page,
the result of page.extract_text(), `none` when extraction yields nothing. -/
structure PdfDoc where
  pages : List (Option String)
deriving DecidableEq

/-- Python format p{n+1:04d}: decimal digits left-padded with zeros to a
minimum width of 4. -/
def pad4 (n : Nat) : String :=
  let s := toString n
  String.mk (List.replicate (4 - s.length) '0') ++ s

/-- out_name of build_cpp: embeds the 1-based page range of a 0-indexed
batch [start, end] into the file name. -/
def cppOutName (start_page_0 end_page_0 : Nat) : String :=
  "cpp-draft.p" ++ pad4 (start_page_0 + 1) ++ "-p" ++ pad4 (end_page_0 + 1) ++ ".txt"

/-- The page-boundary marker written before the text of each page, with
the 1-based page number n. -/
def pageMarker (n : Nat) : String :=
  "\n\n===== PAGE " ++ toString n ++ " =====\n\n"

/-- The text written for 0-indexed page i: the extraction result of
page.extract_text, with an empty string substituted when extraction
yields nothing. -/
def extractOrEmpty (pages : List (Option String)) (i : Nat) : String :=
  (pages.getD i none).getD ("")

/-- The content written to one batch file: the inner for-loop of build_cpp
over pages start..end (0-indexed, inclusive), each write appending the
page marker and then the extracted text. -/
def writeBatch (pages : List (Option String)) (startPage endPage : Nat) : String :=
  (List.range' startPage (endPage + 1 - startPage)).foldl
    (fun acc i => acc ++ pageMarker (i + 1) ++ extractOrEmpty pages i) ""

/-- The while-loop of build_cpp at batch granularity, for a positive batch
size kk + 1: while start < total, emit the batch
(start, min (total - 1) (start + kk)) and continue from end + 1. -/
def batchesFrom (total kk : Nat) (start : Nat) : List (Nat × Nat) :=
  if h : start < total then
    (start, min (total - 1) (start + kk)) ::
      batchesFrom total kk (min (total - 1) (start + kk) + 1)
  else []
termination_by total - start
decreasing_by
  rw [Nat.min_def]
  split <;> omega

/-- The list of page batches produced by build_cpp for a PDF with `total`
pages and batch size k; faithful to the loop for 1 ≤ k (for k ≤ 0 the
source loop does not terminate, see cppLoopStep). -/
def cppBatches (total k : Nat) : List (Nat × Nat) :=
  batchesFrom total (k - 1) 0

/-- One iteration of the while-loop of build_cpp on the loop variable
`start`, over the integers (pages_per_file may be any int in the source):
end = min(total - 1, start + k - 1); start = end + 1. -/
def cppLoopStep (total k : Int) (start : Int) : Int :=
  min (total - 1) (start + k - 1) + 1

/-- build_cpp: check the raw PDF exists (else SystemExit before any
mutation), reset the output directory, then write one file per batch,
named by cppOutName and containing the per-page markers and texts.
Output files are (name, content) pairs. -/
def build_cpp (raw : Option PdfDoc) (k : Nat) (prior : List (String × String)) :
    Option String × List (String × String) :=
  match raw with
  | none => (some cppErrMsg, prior)
  | some pdf =>
    let total := pdf.pages.length
    (none, reset_dir prior ++
      (cppBatches total k).map fun b => (cppOutName b.1 b.2, writeBatch pdf.pages b.1 b.2))

/-- The output directories of the four language builds. -/
structure KbState where
  pythonOut : List FileEntry
  jsOut : List FileEntry
  swiftOut : List FileEntry
  cppOut : List (String × String)
deriving DecidableEq

/-- The raw inputs of the four language builds; `none` models an absent
raw prerequisite. -/
structure RawInputs where
  python : Option (List FileEntry)
  js : Option FileEntry
  swift : Option SwiftRaw
  cpp : Option PdfDoc
deriving DecidableEq

/-- main: run the four builds strictly in the order python, javascript,
swift, cpp; a SystemExit from a build aborts the run there (non-zero exit,
modelled as `some message`), leaving the later outputs untouched. -/
def mainRun (raw : RawInputs) (k : Nat) (s : KbState) : Option String × KbState :=
  match build_python raw.python s.pythonOut with
  | (some m, p) => (some m, { s with pythonOut := p })
  | (none, p) =>
    match build_javascript raw.js s.jsOut with
    | (some m, j) => (some m, { s with pythonOut := p, jsOut := j })
    | (none, j) =>
      match build_swift raw.swift s.swiftOut with
      | (some m, w) => (some m, { s with pythonOut := p, jsOut := j, swiftOut := w })
      | (none, w) =>
        match build_cpp raw.cpp k s.cppOut with
        | (some m, c) => (some m, { pythonOut := p, jsOut := j, swiftOut := w, cppOut := c })
        | (none, c) => (none, { pythonOut := p, jsOut := j, swiftOut := w, cppOut := c })

example : pySuffix ("file.txt") = ".txt" := by decide
example : pySuffix ("a.b.MD") = ".MD" := by decide
example : pySuffix (".bashrc") = "" := by decide
example : pySuffix ("file.") = "" := by decide
example : pySuffix ("file") = "" := by decide
example : pySuffix ("a..") = "" := by decide
example : pySuffix ("foo.txt.") = "" := by decide
example : pySuffix ("..a") = ".a" := by decide
example : pySuffix ("a..b") = ".b" := by decide
example : strLower (".MD") = ".md" := by decide

theorem batchesFrom_nil (total kk start : Nat) (h : total ≤ start) :
    batchesFrom total kk start = [] := by
  rw [batchesFrom]
  simp [Nat.not_lt.mpr h]

theorem batchesFrom_cons (total kk start : Nat) (h : start < total) :
    batchesFrom total kk start =
      (start, min (total - 1) (start + kk)) :: batchesFrom total kk (start + kk + 1) := by
  rw [batchesFrom, dif_pos h]
  rcases Nat.le_total (total - 1) (start + kk) with hle | hle
  · rw [min_eq_left hle]
    have h1 : total - 1 + 1 = total := by omega
    rw [h1, batchesFrom_nil total kk total (le_refl _),
      batchesFrom_nil total kk (start + kk + 1) (by omega)]
  · rw [min_eq_right hle]

example : cppBatches 5 2 = [(0,1),(2,3),(4,4)] := by
  simp [cppBatches, batchesFrom]
example : cppBatches 0 3 = [] := by
  simp [cppBatches, batchesFrom]

theorem ceil_div_step (d kk : Nat) (hd : 1 ≤ d) :
    (d + kk) / (kk + 1) = (d - (kk + 1) + kk) / (kk + 1) + 1 := by
  rcases le_or_lt (kk + 1) d with hK | hK
  · have h1 : d + kk = (d - (kk + 1) + kk) + (kk + 1) := by omega
    rw [h1, Nat.add_div_right _ (Nat.succ_pos kk)]
  · have h1 : d - (kk + 1) = 0 := by omega
    have h2 : d + kk = (d - 1) + (kk + 1) := by omega
    rw [h1, h2, Nat.add_div_right _ (Nat.succ_pos kk),
      Nat.div_eq_of_lt (by omega), Nat.div_eq_of_lt (by omega)]

theorem batchesFrom_length (total kk : Nat) :
    ∀ n start, total - start ≤ n →
      (batchesFrom total kk start).length = (total - start + kk) / (kk + 1) := by
  intro n
  induction n with
  | zero =>
    intro start h
    rw [batchesFrom_nil total kk start (by omega)]
    have h0 : total - start = 0 := by omega
    rw [h0, List.length_nil, Nat.zero_add, Nat.div_eq_of_lt (by omega)]
  | succ n ih =>
    intro start h
    by_cases hlt : start < total
    · rw [batchesFrom_cons total kk start hlt, List.length_cons, ih _ (by omega),
        ceil_div_step (total - start) kk (by omega)]
      congr 2
      omega
    · rw [batchesFrom_nil total kk start (by omega)]
      have h0 : total - start = 0 := by omega
      rw [h0, List.length_nil, Nat.zero_add, Nat.div_eq_of_lt (by omega)]

theorem batchesFrom_getElem? (total kk : Nat) :
    ∀ i start,
      (batchesFrom total kk start)[i]? =
        if start + i * (kk + 1) < total
        then some (start + i * (kk + 1), min (total - 1) (start + i * (kk + 1) + kk))
        else none := by
  intro i
  induction i with
  | zero =>
    intro start
    by_cases h : start < total
    · rw [batchesFrom_cons total kk start h]
      simp [h]
    · rw [batchesFrom_nil total kk start (by omega)]
      have h0 : start + 0 * (kk + 1) = start := by ring
      rw [h0, if_neg h]
      rfl
  | succ i ih =>
    intro start
    by_cases h : start < total
    · rw [batchesFrom_cons total kk start h, List.getElem?_cons_succ, ih (start + kk + 1)]
      have hmul : start + (i + 1) * (kk + 1) = (start + kk + 1) + i * (kk + 1) := by ring
      rw [hmul]
    · rw [batchesFrom_nil total kk start (by omega)]
      have hge : total ≤ start + (i + 1) * (kk + 1) :=
        le_trans (by omega) (Nat.le_add_right _ _)
      simp [Nat.not_lt.mpr hge]


theorem cppBatches_length (T k : Nat) (hk : 1 ≤ k) :
    (cppBatches T k).length = (T + k - 1) / k := by
  rw [cppBatches, batchesFrom_length T (k - 1) (T - 0) 0 (Nat.le_refl _)]
  have h1 : k - 1 + 1 = k := by omega
  have h2 : T - 0 + (k - 1) = T + k - 1 := by omega
  rw [h1, h2]

theorem cppBatches_getElem? (T k i : Nat) (hk : 1 ≤ k) :
    (cppBatches T k)[i]? =
      if i * k < T then some (i * k, min (T - 1) (i * k + (k - 1))) else none := by
  rw [cppBatches, batchesFrom_getElem? T (k - 1) i 0]
  have h1 : k - 1 + 1 = k := by omega
  rw [h1]
  simp

theorem cppBatches_some (T k i : Nat) (hk : 1 ≤ k) (b : Nat × Nat)
    (h : (cppBatches T k)[i]? = some b) :
    i * k < T ∧ b.1 = i * k ∧ b.2 = min (T - 1) (i * k + (k - 1)) := by
  rw [cppBatches_getElem? T k i hk] at h
  by_cases hc : i * k < T
  · rw [if_pos hc] at h
    injection h with h
    exact ⟨hc, by rw [← h], by rw [← h]⟩
  · rw [if_neg hc] at h
    exact absurd h (by simp)


/-- C1: for a PDF with T pages and batch size k ≥ 1, build_cpp creates exactly
ceil(T/k) output files; the file names embed the 1-based page ranges of the
batches via cppOutName (4-digit zero padding); the batches are nonempty, of
size at most k, consecutive (each next batch starts right after the previous
ends), of size exactly k except possibly the last, pairwise non-overlapping,
and their 1-based page ranges cover exactly [1, T]. -/
theorem claim_C1 (pdf : PdfDoc) (k : Nat) (prior : List (String × String)) (hk : 1 ≤ k) :
    ((build_cpp (some pdf) k prior).2.length = (pdf.pages.length + k - 1) / k)
    ∧ ((build_cpp (some pdf) k prior).2.map Prod.fst
        = (cppBatches pdf.pages.length k).map fun b => cppOutName b.1 b.2)
    ∧ (∀ (i : Nat) (b : Nat × Nat), (cppBatches pdf.pages.length k)[i]? = some b →
        b.1 ≤ b.2 ∧ b.2 + 1 - b.1 ≤ k)
    ∧ (∀ (i : Nat) (b c : Nat × Nat), (cppBatches pdf.pages.length k)[i]? = some b →
        (cppBatches pdf.pages.length k)[i + 1]? = some c →
        c.1 = b.2 + 1 ∧ b.2 + 1 - b.1 = k)
    ∧ (∀ (i j : Nat) (b c : Nat × Nat), i < j →
        (cppBatches pdf.pages.length k)[i]? = some b →
        (cppBatches pdf.pages.length k)[j]? = some c →
        b.2 < c.1)
    ∧ (∀ p, (1 ≤ p ∧ p ≤ pdf.pages.length) ↔
        ∃ b ∈ cppBatches pdf.pages.length k, b.1 + 1 ≤ p ∧ p ≤ b.2 + 1) := by
  set T := pdf.pages.length with hT
  refine ⟨?_, ?_, ?_, ?_, ?_, ?_⟩
  · have hout : (build_cpp (some pdf) k prior).2
        = (cppBatches T k).map fun b => (cppOutName b.1 b.2, writeBatch pdf.pages b.1 b.2) := rfl
    rw [hout, List.length_map, cppBatches_length T k hk]
  · have hout : (build_cpp (some pdf) k prior).2
        = (cppBatches T k).map fun b => (cppOutName b.1 b.2, writeBatch pdf.pages b.1 b.2) := rfl
    rw [hout, List.map_map]
    rfl
  · intro i b hb
    obtain ⟨hlt, h1, h2⟩ := cppBatches_some T k i hk b hb
    rcases Nat.le_total (T - 1) (i * k + (k - 1)) with hmin | hmin
    · rw [min_eq_left hmin] at h2
      omega
    · rw [min_eq_right hmin] at h2
      omega
  · intro i b c hb hc
    obtain ⟨hlt, h1, h2⟩ := cppBatches_some T k i hk b hb
    obtain ⟨hlt2, h3, h4⟩ := cppBatches_some T k (i + 1) hk c hc
    have hmul : (i + 1) * k = i * k + k := by ring
    rw [hmul] at hlt2 h3
    have hmin : i * k + (k - 1) ≤ T - 1 := by omega
    rw [min_eq_right hmin] at h2
    omega
  · intro i j b c hij hb hc
    obtain ⟨hlt, h1, h2⟩ := cppBatches_some T k i hk b hb
    obtain ⟨hlt2, h3, h4⟩ := cppBatches_some T k j hk c hc
    have hle : (i + 1) * k ≤ j * k := mul_le_mul_right' (by omega) k
    have hmul : (i + 1) * k = i * k + k := by ring
    rw [hmul] at hle
    have hmin2 : b.2 ≤ i * k + (k - 1) := by
      rw [h2]
      exact min_le_right _ _
    omega
  · intro p
    constructor
    · rintro ⟨hp1, hp2⟩
      have hdm := Nat.div_add_mod (p - 1) k
      rw [Nat.mul_comm] at hdm
      have hmod : (p - 1) % k < k := Nat.mod_lt _ (by omega)
      set i := (p - 1) / k with hi
      have h1 : i * k ≤ p - 1 := Nat.div_mul_le_self _ _
      have h2 : p - 1 < i * k + k := by omega
      have hlt : i * k < T := by omega
      have hsome : (cppBatches T k)[i]? = some (i * k, min (T - 1) (i * k + (k - 1))) := by
        rw [cppBatches_getElem? T k i hk, if_pos hlt]
      refine ⟨(i * k, min (T - 1) (i * k + (k - 1))),
        List.mem_iff_getElem?.mpr ⟨i, hsome⟩, ?_, ?_⟩
      · show i * k + 1 ≤ p
        omega
      · show p ≤ min (T - 1) (i * k + (k - 1)) + 1
        rcases Nat.le_total (T - 1) (i * k + (k - 1)) with hmin | hmin
        · rw [min_eq_left hmin]
          omega
        · rw [min_eq_right hmin]
          omega
    · rintro ⟨b, hbmem, hb1, hb2⟩
      obtain ⟨i, hi⟩ := List.mem_iff_getElem?.mp hbmem
      obtain ⟨hlt, h1, h2⟩ := cppBatches_some T k i hk b hi
      rcases Nat.le_total (T - 1) (i * k + (k - 1)) with hmin | hmin
      · rw [min_eq_left hmin] at h2
        constructor <;> omega
      · rw [min_eq_right hmin] at h2
        constructor <;> omega

theorem strFoldl_append (l : List String) :
    ∀ a : String, l.foldl (· ++ ·) a = a ++ l.foldl (· ++ ·) "" := by
  induction l with
  | nil => intro a; exact (String.append_empty a).symm
  | cons s l ih =>
    intro a
    simp only [List.foldl_cons]
    rw [ih (a ++ s), ih ("" ++ s), String.empty_append, String.append_assoc]

theorem join_cons (s : String) (l : List String) :
    String.join (s :: l) = s ++ String.join l := by
  simp only [String.join, List.foldl_cons, String.empty_append]
  exact strFoldl_append l s

theorem foldl_append_join (f : Nat → String) :
    ∀ (l : List Nat) (a : String),
      l.foldl (fun acc i => acc ++ f i) a = a ++ String.join (l.map f) := by
  intro l
  induction l with
  | nil => intro a; exact (String.append_empty a).symm
  | cons i l ih =>
    intro a
    simp only [List.foldl_cons, List.map_cons]
    rw [ih (a ++ f i), join_cons, String.append_assoc]

theorem writeBatch_eq_join (pages : List (Option String)) (s e : Nat) :
    writeBatch pages s e =
      String.join ((List.range' s (e + 1 - s)).map fun i =>
        pageMarker (i + 1) ++ extractOrEmpty pages i) := by
  have hstep : (fun (acc : String) i => acc ++ pageMarker (i + 1) ++ extractOrEmpty pages i)
      = fun acc i => acc ++ (pageMarker (i + 1) ++ extractOrEmpty pages i) := by
    funext acc i
    rw [String.append_assoc]
  rw [writeBatch, hstep, foldl_append_join, String.empty_append]

/-- C6: each batch file written by build_cpp contains, for each page of the
batch in ascending page order, the marker segment (newline, blank line,
the line ===== PAGE n ===== with the 1-based page number, blank line)
followed by that page text; when extraction yields nothing for a page an
empty string is written in its place rather than failing. -/
theorem claim_C6 (pdf : PdfDoc) (k : Nat) (prior : List (String × String)) (hk : 1 ≤ k) :
    ((build_cpp (some pdf) k prior).2 =
      (cppBatches pdf.pages.length k).map fun b =>
        (cppOutName b.1 b.2,
         String.join ((List.range' b.1 (b.2 + 1 - b.1)).map fun i =>
           pageMarker (i + 1) ++ extractOrEmpty pdf.pages i)))
    ∧ (∀ i : Nat, pdf.pages.getD i none = none → extractOrEmpty pdf.pages i = "") := by
  constructor
  · have hout : (build_cpp (some pdf) k prior).2
        = (cppBatches pdf.pages.length k).map fun b =>
            (cppOutName b.1 b.2, writeBatch pdf.pages b.1 b.2) := rfl
    rw [hout]
    have hfun : (fun (b : Nat × Nat) => (cppOutName b.1 b.2, writeBatch pdf.pages b.1 b.2))
        = fun b => (cppOutName b.1 b.2,
            String.join ((List.range' b.1 (b.2 + 1 - b.1)).map fun i =>
              pageMarker (i + 1) ++ extractOrEmpty pdf.pages i)) := by
      funext b
      rw [writeBatch_eq_join]
    rw [hfun]
  · intro i h
    unfold extractOrEmpty
    rw [h]
    rfl

/-- C8: for a PDF with zero pages and any batch size k >= 1, build_cpp
terminates without error and creates zero output files, leaving the freshly
reset output directory empty. -/
theorem claim_C8 (k : Nat) (prior : List (String × String)) (hk : 1 ≤ k) :
    build_cpp (some ⟨[]⟩) k prior = (none, []) := by
  simp [build_cpp, reset_dir, cppBatches, batchesFrom_nil 0 (k - 1) 0 (Nat.le_refl 0)]

/-- C9: for pages_per_file <= 0 and a PDF with at least one page, the
batching while-loop of build_cpp never terminates: after any number of
iterations the loop variable start is still below total. -/
theorem claim_C9 (total k : Int) (htotal : 1 ≤ total) (hk : k ≤ 0) :
    ∀ n : Nat, (cppLoopStep total k)^[n] 0 < total := by
  have inv : ∀ n : Nat, (cppLoopStep total k)^[n] 0 ≤ 0 := by
    intro n
    induction n with
    | zero => simp
    | succ n ih =>
      rw [Function.iterate_succ_apply']
      rw [cppLoopStep, min_eq_right (by omega)]
      omega
  intro n
  have := inv n
  omega

/-- C2: for each of the four language build operations, the output
directory contents after a run on a present raw input do not depend on the
prior state of the output directory (the directory is destroyed and
recreated first), so running twice on the same raw input yields identical
output contents. -/
theorem claim_C2 (rp : List FileEntry) (rj : FileEntry) (rs : SwiftRaw) (rc : PdfDoc)
    (k : Nat) (p1 p2 q1 q2 w1 w2 : List FileEntry) (c1 c2 : List (String × String)) :
    (build_python (some rp) p1).2 = (build_python (some rp) p2).2
    ∧ (build_javascript (some rj) q1).2 = (build_javascript (some rj) q2).2
    ∧ (build_swift (some rs) w1).2 = (build_swift (some rs) w2).2
    ∧ (build_cpp (some rc) k c1).2 = (build_cpp (some rc) k c2).2 :=
  ⟨rfl, rfl, rfl, rfl⟩

/-- C3: copy_matching_files copies a file if and only if its extension
(pathlib suffix), lowercased by the runtime case mapping, is in the allowed
suffix set; copied files keep their relative path, content and metadata
unchanged, and the returned count equals the number of files copied. The
external str.lower routine is abstracted as the parameter low, so the
property holds for every lowering and in particular for the Unicode one of
the Python runtime; the last conjunct ties the executable
copy_matching_files to the instance at the ASCII lowering strLower. -/
theorem claim_C3 (low : String → String) (files : List FileEntry) (suffixes : List String) :
    (∀ e : FileEntry, e ∈ (copy_matching_files_with low files suffixes).1 ↔
        e ∈ files ∧ low (pySuffix (fileName e)) ∈ suffixes)
    ∧ (copy_matching_files_with low files suffixes).2
        = (copy_matching_files_with low files suffixes).1.length
    ∧ copy_matching_files files suffixes = copy_matching_files_with strLower files suffixes := by
  have hid : copy2Entry = id := rfl
  refine ⟨?_, ?_, rfl⟩
  · intro e
    simp [copy_matching_files_with, hid, List.mem_filter]
  · simp [copy_matching_files_with, hid]

/-- C4: each of the four build steps, invoked with its raw input absent,
fails with the missing-prerequisite message of the source, which names the
upstream fetch step pull-docs.sh, and leaves the prior output directory
completely untouched. -/
theorem claim_C4 (p q w : List FileEntry) (c : List (String × String)) (k : Nat) :
    (build_python none p = (some pythonErrMsg, p)
      ∧ ∃ a b : String, pythonErrMsg = a ++ "pull-docs.sh" ++ b)
    ∧ (build_javascript none q = (some jsErrMsg, q)
      ∧ ∃ a b : String, jsErrMsg = a ++ "pull-docs.sh" ++ b)
    ∧ (build_swift none w = (some swiftErrMsg, w)
      ∧ ∃ a b : String, swiftErrMsg = a ++ "pull-docs.sh" ++ b)
    ∧ (build_cpp none k c = (some cppErrMsg, c)
      ∧ ∃ a b : String, cppErrMsg = a ++ "pull-docs.sh" ++ b) :=
  ⟨⟨rfl, "Python raw docs not found. Run: ./rag-ml/kb/", "", by decide⟩,
   ⟨rfl, "JS raw ecma262.txt not found. Run: ./rag-ml/kb/", "", by decide⟩,
   ⟨rfl, "Swift raw swift-book not found. Run: ./rag-ml/kb/", "", by decide⟩,
   ⟨rfl, "C++ draft PDF not found. Run: ./rag-ml/kb/", "", by decide⟩⟩

/-- C5: copy_tree produces a full recursive mirror: the output holds
exactly the files of the raw directory, each at the identical relative
path, and copy2Entry preserves content, modification time and permission
mode. -/
theorem claim_C5 (src : List FileEntry) :
    copy_tree src = src
    ∧ (∀ e : FileEntry, e ∈ copy_tree src ↔ e ∈ src)
    ∧ (∀ e : FileEntry, (copy2Entry e).path = e.path ∧ (copy2Entry e).content = e.content
        ∧ (copy2Entry e).mtime = e.mtime ∧ (copy2Entry e).mode = e.mode) := by
  have hid : copy2Entry = id := rfl
  refine ⟨?_, ?_, ?_⟩
  · simp [copy_tree, hid]
  · intro e
    simp [copy_tree, hid]
  · intro e
    exact ⟨rfl, rfl, rfl, rfl⟩

/-- C7: the driver runs the builds in the order python, javascript, swift,
cpp and halts at the first missing prerequisite: the failing step reports
its message and every later output directory is left untouched; when all
four raw inputs are present the run ends without error (zero exit). -/
theorem claim_C7 (k : Nat) (s : KbState) :
    (∀ (rj : Option FileEntry) (rs : Option SwiftRaw) (rc : Option PdfDoc),
        mainRun ⟨none, rj, rs, rc⟩ k s = (some pythonErrMsg, s))
    ∧ (∀ (rp : List FileEntry) (rs : Option SwiftRaw) (rc : Option PdfDoc),
        mainRun ⟨some rp, none, rs, rc⟩ k s =
          (some jsErrMsg, { s with pythonOut := (build_python (some rp) s.pythonOut).2 }))
    ∧ (∀ (rp : List FileEntry) (rj : FileEntry) (rc : Option PdfDoc),
        mainRun ⟨some rp, some rj, none, rc⟩ k s =
          (some swiftErrMsg,
            { s with pythonOut := (build_python (some rp) s.pythonOut).2,
                     jsOut := (build_javascript (some rj) s.jsOut).2 }))
    ∧ (∀ (rp : List FileEntry) (rj : FileEntry) (rs : SwiftRaw),
        mainRun ⟨some rp, some rj, some rs, none⟩ k s =
          (some cppErrMsg,
            { s with pythonOut := (build_python (some rp) s.pythonOut).2,
                     jsOut := (build_javascript (some rj) s.jsOut).2,
                     swiftOut := (build_swift (some rs) s.swiftOut).2 }))
    ∧ (∀ (rp : List FileEntry) (rj : FileEntry) (rs : SwiftRaw) (rc : PdfDoc),
        (mainRun ⟨some rp, some rj, some rs, some rc⟩ k s).1 = none) := by
  refine ⟨fun rj rs rc => rfl, fun rp rs rc => rfl, fun rp rj rc => rfl,
    fun rp rj rs => rfl, fun rp rj rs rc => rfl⟩

/-- C10: in build_swift, when raw/swift-book/LICENSE.txt exists it is
copied to the top level of the output directory (path LICENSE.txt, not
inside TSPL.docc) although its lowercased extension is not in the .md
filter; when it is absent the build still succeeds; and the reported
md_files count is independent of the presence of the license file. -/
theorem claim_C10 (sr : SwiftRaw) (prior : List FileEntry) :
    (∀ lf : FileEntry, sr.license = some lf →
        (build_swift (some sr) prior).2
            = (copy_matching_files sr.docc [".md"]).1.map doccEntry ++ [licenseEntry lf]
        ∧ licenseEntry lf ∈ (build_swift (some sr) prior).2
        ∧ (licenseEntry lf).path = ["LICENSE.txt"])
    ∧ strLower (pySuffix ("LICENSE.txt")) ∉ [".md"]
    ∧ (sr.license = none →
        (build_swift (some sr) prior).1 = none
        ∧ (build_swift (some sr) prior).2
            = (copy_matching_files sr.docc [".md"]).1.map doccEntry)
    ∧ (∀ l1 l2 : Option FileEntry,
        swiftReportCount ⟨sr.docc, l1⟩ = swiftReportCount ⟨sr.docc, l2⟩) := by
  refine ⟨?_, by decide, ?_, fun l1 l2 => rfl⟩
  · intro lf h
    have hout : (build_swift (some sr) prior).2
        = (copy_matching_files sr.docc [".md"]).1.map doccEntry ++ [licenseEntry lf] := by
      simp [build_swift, h, reset_dir]
    exact ⟨hout, by rw [hout]; exact List.mem_append_right _ (List.mem_singleton_self _), rfl⟩
  · intro h
    constructor
    · simp [build_swift, h, reset_dir]
    · simp [build_swift, h, reset_dir]

/-- A sample 5-page PDF used by the witnesses, with one page where
extraction yields nothing and one where it yields the empty string. -/
def pdf0 : PdfDoc := ⟨[some ("a"), none, some ("c"), some (""), some ("e")]⟩

/-- A sample markdown file used by the witnesses. -/
def entry0 : FileEntry := ⟨["guide", "intro.md"], "hello", 10, 420⟩

/-- A sample non-markdown file used by the witnesses. -/
def entry1 : FileEntry := ⟨["notes.TXT"], "notes", 11, 421⟩

/-- A sample license file used by the witnesses. -/
def lic0 : FileEntry := ⟨["LICENSE.txt"], "license text", 12, 422⟩

/-- A sample raw swift-book directory used by the witnesses. -/
def sw0 : SwiftRaw := ⟨[entry0, entry1], some lic0⟩

/-- Witness for C1: the theorem applied to the 5-page sample PDF with
batch size 2 and a stale prior output file. -/
theorem claim_C1_witness :
    1 ≤ 2
    ∧ (((build_cpp (some pdf0) 2 [("stale", "old")]).2.length = (pdf0.pages.length + 2 - 1) / 2)
      ∧ ((build_cpp (some pdf0) 2 [("stale", "old")]).2.map Prod.fst
          = (cppBatches pdf0.pages.length 2).map fun b => cppOutName b.1 b.2)
      ∧ (∀ (i : Nat) (b : Nat × Nat), (cppBatches pdf0.pages.length 2)[i]? = some b →
          b.1 ≤ b.2 ∧ b.2 + 1 - b.1 ≤ 2)
      ∧ (∀ (i : Nat) (b c : Nat × Nat), (cppBatches pdf0.pages.length 2)[i]? = some b →
          (cppBatches pdf0.pages.length 2)[i + 1]? = some c →
          c.1 = b.2 + 1 ∧ b.2 + 1 - b.1 = 2)
      ∧ (∀ (i j : Nat) (b c : Nat × Nat), i < j →
          (cppBatches pdf0.pages.length 2)[i]? = some b →
          (cppBatches pdf0.pages.length 2)[j]? = some c →
          b.2 < c.1)
      ∧ (∀ p, (1 ≤ p ∧ p ≤ pdf0.pages.length) ↔
          ∃ b ∈ cppBatches pdf0.pages.length 2, b.1 + 1 ≤ p ∧ p ≤ b.2 + 1)) :=
  ⟨by decide, claim_C1 pdf0 2 [("stale", "old")] (by decide)⟩

/-- Witness for C3: the theorem applied at the ASCII lowering to a two-file
tree with the .md filter. -/
theorem claim_C3_witness :
    (∀ e : FileEntry, e ∈ (copy_matching_files_with strLower [entry0, entry1] [".md"]).1 ↔
        e ∈ [entry0, entry1] ∧ strLower (pySuffix (fileName e)) ∈ [".md"])
    ∧ (copy_matching_files_with strLower [entry0, entry1] [".md"]).2
        = (copy_matching_files_with strLower [entry0, entry1] [".md"]).1.length
    ∧ copy_matching_files [entry0, entry1] [".md"]
        = copy_matching_files_with strLower [entry0, entry1] [".md"] :=
  claim_C3 strLower [entry0, entry1] [".md"]

/-- Witness for C5: the theorem applied to a two-file tree. -/
theorem claim_C5_witness :
    copy_tree [entry0, entry1] = [entry0, entry1]
    ∧ (∀ e : FileEntry, e ∈ copy_tree [entry0, entry1] ↔ e ∈ [entry0, entry1])
    ∧ (∀ e : FileEntry, (copy2Entry e).path = e.path ∧ (copy2Entry e).content = e.content
        ∧ (copy2Entry e).mtime = e.mtime ∧ (copy2Entry e).mode = e.mode) :=
  claim_C5 [entry0, entry1]

/-- Witness for C6: the theorem applied to the 5-page sample PDF with batch
size 2. -/
theorem claim_C6_witness :
    1 ≤ 2
    ∧ (((build_cpp (some pdf0) 2 [("stale", "old2")]).2 =
        (cppBatches pdf0.pages.length 2).map fun b =>
          (cppOutName b.1 b.2,
           String.join ((List.range' b.1 (b.2 + 1 - b.1)).map fun i =>
             pageMarker (i + 1) ++ extractOrEmpty pdf0.pages i)))
      ∧ (∀ i : Nat, pdf0.pages.getD i none = none → extractOrEmpty pdf0.pages i = "")) :=
  ⟨by decide, claim_C6 pdf0 2 [("stale", "old2")] (by decide)⟩

/-- Witness for C8: the theorem applied to the empty PDF with batch size 3
and a stale prior output file. -/
theorem claim_C8_witness :
    1 ≤ 3 ∧ build_cpp (some ⟨[]⟩) 3 [("junk", "j")] = (none, []) :=
  ⟨by decide, claim_C8 3 [("junk", "j")] (by decide)⟩

/-- Witness for C9: the theorem applied at total = 2 pages and
pages_per_file = -3. -/
theorem claim_C9_witness :
    (1 : Int) ≤ 2 ∧ (-3 : Int) ≤ 0 ∧ ∀ n : Nat, (cppLoopStep 2 (-3))^[n] 0 < 2 :=
  ⟨by decide, by decide, claim_C9 2 (-3) (by decide) (by decide)⟩

/-- Witness for C10: the theorem applied to a raw swift-book with two docc
files and a LICENSE.txt. -/
theorem claim_C10_witness :
    (∀ lf : FileEntry, sw0.license = some lf →
        (build_swift (some sw0) [entry1]).2
            = (copy_matching_files sw0.docc [".md"]).1.map doccEntry ++ [licenseEntry lf]
        ∧ licenseEntry lf ∈ (build_swift (some sw0) [entry1]).2
        ∧ (licenseEntry lf).path = ["LICENSE.txt"])
    ∧ strLower (pySuffix ("LICENSE.txt")) ∉ [".md"]
    ∧ (sw0.license = none →
        (build_swift (some sw0) [entry1]).1 = none
        ∧ (build_swift (some sw0) [entry1]).2
            = (copy_matching_files sw0.docc [".md"]).1.map doccEntry)
    ∧ (∀ l1 l2 : Option FileEntry,
        swiftReportCount ⟨sw0.docc, l1⟩ = swiftReportCount ⟨sw0.docc, l2⟩) :=
  claim_C10 sw0 [entry1]
